import Mathlib

set_option maxRecDepth 100000

/-!
Shallow embedding of the HRM-Platform service (src/main.py) and proofs about
its bulk CSV import pipeline and single-record CRUD endpoints.

Modelling conventions, with the source locations they embed:

* The uploaded file is represented after the UTF-8 decode and csv layer:
  a value of type Option (List (List String)).  none models a byte string
  whose decode raises UnicodeDecodeError (main.py line 195); some rows models
  the row list produced by csv.reader over the decoded text (line 199).  The
  quoting rules of the csv module are not re-implemented: every claim below
  is about what happens to the rows, not about how commas are grouped.
* Python str.strip is modelled by String.trim (ASCII whitespace; the extra
  Unicode whitespace accepted by Python does not occur in any claim input).
* Python int(float(salary_str)) (line 238) is modelled exactly on its
  ASCII grammar, including underscores between digits, the inf / infinity /
  nan keywords, and the double-precision overflow to an infinity.  Two
  deliberate abstractions: (1) the binary rounding of the IEEE double is not
  modelled, the decimal value is truncated exactly, which differs from
  CPython only for inputs within one unit in the last place of an integer
  boundary (17+ significant digits) and no claim depends on such inputs;
  (2) the transformation of non-ASCII decimal digits that CPython applies
  before parsing is not modelled, all claim inputs are ASCII.
  int(float(x)) raises OverflowError when float(x) is an infinity; line 241
  of main.py catches only ValueError, so OverflowError escapes the endpoint:
  this is the SalaryParse.overflowError outcome, mapped to
  UploadResult.serverError below.
* The database session is modelled by a Store value threaded through the
  operations.  session.add stages a record; session.commit appends the
  staged records and raises IntegrityError exactly when a staged
  employee_code collides with a persisted one (the unique constraint on
  Employee.employee_code, line 22); rollback returns the unchanged store.
* Employee.model_validate on the table model (lines 120 and 261) runs the
  pydantic validator (SQLModel sqlmodel_validate calls
  cls.__pydantic_validator__.validate_python), so Field(gt=0) on salary
  (line 27) raises ValidationError when the salary is not > 0.  In the
  upload loop that exception is caught at line 266, which appends an error
  entry and removes the code from the batch set; in create_employee it is
  uncaught (line 120 sits outside the try block), aborting the request.
  The interpolated exception text is abstracted as dataValidationMsg.
-/

namespace HRM

/-- Characters removed by str.strip with no argument (ASCII whitespace;
the Unicode whitespace also stripped by Python occurs in no claim). -/
def isSpaceChar (c : Char) : Bool :=
  c == ' ' || c == '\t' || c == '\n' || c == '\r' || c == '\x0b' || c == '\x0c'

/-- Python str.strip on a field (main.py line 226). -/
def pyStrip (s : String) : String :=
  ⟨((s.data.dropWhile isSpaceChar).reverse.dropWhile isSpaceChar).reverse⟩

/-- Consume a run of decimal digits in which a single underscore may stand
between two digits (the PEP 515 rule applied by the float builtin).
Returns the digits with underscores removed, and the unconsumed rest. -/
def digitsCore : List Char → List Char × List Char
  | '_' :: c :: rest =>
    if c.isDigit then
      let p := digitsCore rest
      (c :: p.1, p.2)
    else ([], '_' :: c :: rest)
  | c :: rest =>
    if c.isDigit then
      let p := digitsCore rest
      (c :: p.1, p.2)
    else ([], c :: rest)
  | [] => ([], [])

/-- A digit group of the float grammar: must start with a digit. -/
def digitGroup : List Char → Option (List Char × List Char)
  | c :: rest =>
    if c.isDigit then
      let p := digitsCore rest
      some (c :: p.1, p.2)
    else none
  | [] => none

/-- Numeric value of a list of decimal digits. -/
def digitsToNat (ds : List Char) : Nat :=
  ds.foldl (fun a c => a * 10 + (c.toNat - 48)) 0

/-- Exponent part of the float grammar, after the letter e: an optional sign
and a digit group that must consume the whole rest. -/
def parseExp (l : List Char) : Option Int :=
  let p : Int × List Char :=
    match l with
    | '+' :: r => (1, r)
    | '-' :: r => (-1, r)
    | r => (1, r)
  match digitGroup p.2 with
  | some (ds, []) => some (p.1 * (digitsToNat ds : Int))
  | _ => none

/-- Finite part of the float grammar, after the optional sign: integer
digits, optional fraction, optional exponent; at least one digit must be
present in the mantissa and the whole input must be consumed.  Returns the
mantissa digits as a Nat together with the decimal exponent, so the exact
value is m * 10 ^ e. -/
def parseDecimal (l : List Char) : Option (Nat × Int) :=
  let ip : List Char × List Char :=
    match digitGroup l with
    | some (ds, r) => (ds, r)
    | none => ([], l)
  let fp : List Char × List Char :=
    match ip.2 with
    | '.' :: r =>
      match digitGroup r with
      | some (ds, rr) => (ds, rr)
      | none => ([], r)
    | _ => ([], ip.2)
  if ip.1 = [] ∧ fp.1 = [] then none
  else
    let m := digitsToNat (ip.1 ++ fp.1)
    let fe : Int := -(fp.1.length : Int)
    match fp.2 with
    | [] => some (m, fe)
    | c :: r3 =>
      if c = 'e' ∨ c = 'E' then
        match parseExp r3 with
        | some ev => some (m, fe + ev)
        | none => none
      else none

/-- Outcome of int(float(salary_str)) at main.py line 238.  valueError is a
ValueError (caught at line 241); overflowError is the OverflowError raised
by int when the float is an infinity, which line 241 does NOT catch, so it
aborts the whole request; ok n is the truncated integer. -/
inductive SalaryParse where
  | valueError
  | overflowError
  | ok (n : Int)
deriving DecidableEq

/-- Magnitudes at or above this bound round to an IEEE-754 double infinity,
so float returns inf and int(inf) raises OverflowError. -/
def ovfBound : Nat := 2 ^ 1024 - 2 ^ 970

/-- Lower-case a character list (the inf / infinity / nan keywords of the
float builtin are case insensitive). -/
def lowerList (l : List Char) : List Char := l.map Char.toLower

/-- Model of int(float(s)) (main.py line 238): strip, optional sign, then
either an infinity or nan keyword or a finite decimal literal, truncated
toward zero. -/
def pyFloatTruncToInt (s : String) : SalaryParse :=
  let cs := (pyStrip s).toList
  let sp : Int × List Char :=
    match cs with
    | '+' :: r => (1, r)
    | '-' :: r => (-1, r)
    | r => (1, r)
  let low := lowerList sp.2
  if low = ['i', 'n', 'f'] ∨ low = ['i', 'n', 'f', 'i', 'n', 'i', 't', 'y'] then
    .overflowError
  else if low = ['n', 'a', 'n'] then
    .valueError
  else
    match parseDecimal sp.2 with
    | none => .valueError
    | some me =>
      if 0 ≤ me.2 then
        let v := me.1 * 10 ^ me.2.toNat
        if ovfBound ≤ v then .overflowError else .ok (sp.1 * (v : Int))
      else
        let k := (-me.2).toNat
        if ovfBound * 10 ^ k ≤ me.1 then .overflowError
        else .ok (sp.1 * ((me.1 / 10 ^ k : Nat) : Int))

/-- Input model of the create endpoint (main.py lines 30-43).  Its
field validators (non-blank strings) run when FastAPI parses a request
body; in the upload loop the constructor arguments are the already
stripped, already checked fields, so construction never fails there. -/
structure EmployeeCreate where
  name : String
  employee_code : String
  position : String
  department : String
  salary : Int
deriving DecidableEq

/-- Persisted employee row (main.py lines 17-27): id is the
database-assigned primary key. -/
structure Employee where
  id : Nat
  employee_code : String
  name : String
  position : String
  department : String
  salary : Int
deriving DecidableEq

/-- The database table plus the id sequence. -/
structure Store where
  rows : List Employee
  nextId : Nat
deriving DecidableEq

/-- The persisted employee codes. -/
def Store.codes (s : Store) : List String := s.rows.map Employee.employee_code

/-- Employee.model_validate of a creation value, with the id the database
will assign. -/
def EmployeeCreate.toEmployee (e : EmployeeCreate) (id : Nat) : Employee :=
  ⟨id, e.employee_code, e.name, e.position, e.department, e.salary⟩

/-- Primary keys handed out by the database to a committed batch, in
staging order. -/
def assignIds (nid : Nat) : List EmployeeCreate → List Employee
  | [] => []
  | e :: rest => e.toEmployee nid :: assignIds (nid + 1) rest

/-- Row marker of an error entry: a data row number or the literal
"Batch Error" string used by the synthetic batch entry (line 281). -/
inductive RowRef where
  | num (n : Nat)
  | batch
deriving DecidableEq

/-- Data payload of an error entry: the raw row, or the literal "N/A" of
the synthetic batch entry. -/
inductive RowData where
  | fields (row : List String)
  | na
deriving DecidableEq

/-- One element of the errors list of the upload response. -/
structure ErrorEntry where
  row : RowRef
  error : String
  data : RowData
deriving DecidableEq

def sq : String := "\x27"

/-- Detail of the 400 raised on UnicodeDecodeError (line 197). -/
def encodingErrMsg : String := "檔案編碼錯誤，請確保使用 UTF-8 編碼。"

/-- Detail of the 400 raised on an empty file (line 204). -/
def emptyFileMsg : String := "檔案內容為空。"

/-- Detail of the 400 raised on a short header (line 208). -/
def headerErrMsg : String :=
  "檔案標頭不完整，預期欄位：姓名 (Name), 員工編號 (Code), 職位 (Position), 部門 (Department), 薪資 (Salary)。"

/-- Error of a row with fewer than 5 fields (line 221). -/
def insufficientMsg : String := "資料欄位不足"

/-- Error of a row with a blank required field (line 233). -/
def requiredMsg : String := "所有欄位 (姓名, 編號, 職位, 部門, 薪資) 均為必填，不能為空。"

/-- Error of a row whose salary fails to parse or is negative (line 242);
it names the exact (stripped) salary text. -/
def salaryFormatMsg (s : String) : String :=
  "薪資格式錯誤: " ++ sq ++ s ++ sq ++ " 不是有效的正整數。"

/-- Error of a row whose code was already seen in this upload (line 247). -/
def dupCodeMsg (code : String) : String :=
  "員工編號 " ++ sq ++ code ++ sq ++ " 在本次上傳中重複。"

/-- Error appended when staging raises (line 267).  The Python message is
this text, a colon and the interpolated exception rendering; the rendering
is library-version dependent and no claim inspects it, so it is abstracted
away here. -/
def dataValidationMsg : String := "資料驗證錯誤"

/-- Message of the response returned when the batch commit is rejected
(line 279). -/
def batchFailMsg : String :=
  "批次上傳失敗。批次中至少一筆記錄的員工編號與既有資料庫記錄衝突，所有記錄已撤銷。"

/-- The synthetic batch-level error entry (line 281). -/
def batchErrorEntry : ErrorEntry :=
  ⟨.batch, "批次中有員工編號與既有資料庫記錄衝突，所有記錄已撤銷。", .na⟩

/-- Message of the success response (line 287). -/
def successMsg (n : Nat) : String :=
  "批次上傳完成。成功新增 " ++ toString n ++ " 筆記錄。"

/-- State threaded through the row loop (lines 210-214): the success
counter, the collected error entries, the batch-local code set (as the
list of codes in insertion order) and the records staged in the session. -/
structure BatchState where
  successCount : Nat
  errors : List ErrorEntry
  batchCodes : List String
  staged : List EmployeeCreate
deriving DecidableEq

/-- Result of one iteration of the row loop: the updated state, or the
uncaught OverflowError escaping the endpoint. -/
inductive StepResult where
  | next (st : BatchState)
  | crash
deriving DecidableEq

/-- Field i of the row after take-5 and strip (line 226).  Only evaluated
under the length guard of line 220, where it is the actual cell. -/
def fieldAt (row : List String) (i : Nat) : String := pyStrip (row.getD i "")

/-- Body of the row loop (main.py lines 219-269), one data row. -/
def processRow (st : BatchState) (rowNum : Nat) (row : List String) : StepResult :=
  if row.length < 5 then
    .next { st with errors := st.errors ++ [⟨.num rowNum, insufficientMsg, .fields row⟩] }
  else
    let name := fieldAt row 0
    let code := fieldAt row 1
    let position := fieldAt row 2
    let department := fieldAt row 3
    let salaryStr := fieldAt row 4
    if name = "" ∨ code = "" ∨ position = "" ∨ department = "" ∨ salaryStr = "" then
      .next { st with errors := st.errors ++ [⟨.num rowNum, requiredMsg, .fields row⟩] }
    else
      match pyFloatTruncToInt salaryStr with
      | .overflowError => .crash
      | .valueError =>
        .next { st with errors := st.errors ++ [⟨.num rowNum, salaryFormatMsg salaryStr, .fields row⟩] }
      | .ok salary =>
        if salary < 0 then
          .next { st with errors := st.errors ++ [⟨.num rowNum, salaryFormatMsg salaryStr, .fields row⟩] }
        else if code ∈ st.batchCodes then
          .next { st with errors := st.errors ++ [⟨.num rowNum, dupCodeMsg code, .fields row⟩] }
        else if salary ≤ 0 then
          .next { st with errors := st.errors ++ [⟨.num rowNum, dataValidationMsg, .fields row⟩] }
        else
          .next { st with
                  batchCodes := st.batchCodes ++ [code],
                  staged := st.staged ++ [⟨name, code, position, department, salary⟩],
                  successCount := st.successCount + 1 }

/-- The row loop (line 216): idx is the 0-based enumerate counter, the
displayed row number is idx + 2.  none is the uncaught OverflowError. -/
def runRows (st : BatchState) (idx : Nat) : List (List String) → Option BatchState
  | [] => some st
  | row :: rest =>
    match processRow st (idx + 2) row with
    | .next st2 => runRows st2 (idx + 1) rest
    | .crash => none

/-- State before the first data row. -/
def initBatchState : BatchState := ⟨0, [], [], []⟩

/-- session.commit of the staged batch (line 274): IntegrityError exactly
when a staged code is already persisted (staged codes are batch-locally
distinct by construction); on success the rows are appended with fresh
primary keys. -/
def commitBatch (s : Store) (staged : List EmployeeCreate) : Option Store :=
  if ∃ e ∈ staged, e.employee_code ∈ s.codes then none
  else some ⟨s.rows ++ assignIds s.nextId staged, s.nextId + staged.length⟩

/-- Response of the upload endpoint: a 400 HTTPException, the unhandled
exception (HTTP 500) escaping from the loop, or a normal JSON response
with message, successful_uploads and errors. -/
inductive UploadResult where
  | badRequest (detail : String)
  | serverError
  | ok (message : String) (successful_uploads : Nat) (errors : List ErrorEntry)
deriving DecidableEq

/-- The upload endpoint (main.py lines 188-288) over the decoded row list
and the store; returns the response and the store after the request. -/
def bulkUpload (file : Option (List (List String))) (s : Store) : UploadResult × Store :=
  match file with
  | none => (.badRequest encodingErrMsg, s)
  | some [] => (.badRequest emptyFileMsg, s)
  | some (header :: dataRows) =>
    if header.length < 5 then (.badRequest headerErrMsg, s)
    else
      match runRows initBatchState 0 dataRows with
      | none => (.serverError, s)
      | some st =>
        match commitBatch s st.staged with
        | none => (.ok batchFailMsg 0 (batchErrorEntry :: st.errors), s)
        | some s2 => (.ok (successMsg st.successCount) st.successCount st.errors, s2)

/-- Response of a single-record endpoint: value, HTTPException with status
and detail, or an unhandled exception (HTTP 500). -/
inductive ApiOutcome (α : Type) where
  | ok (value : α)
  | clientError (status : Nat) (detail : String)
  | serverCrash
deriving DecidableEq

/-- Detail of the 400 of create_employee (line 129). -/
def createDupMsg (code : String) : String := "員工編號 " ++ code ++ " 已存在。"

/-- Detail of the 400 of update_employee (line 159). -/
def updateDupMsg (code : String) : String := "新員工編號 " ++ code ++ " 已被其他員工使用。"

def notFoundMsg : String := "Employee not found"

/-- POST /employees (main.py lines 116-134).  Employee.model_validate at
line 120 sits outside the try block, so its ValidationError on a
non-positive salary aborts the request; the commit raises IntegrityError
exactly on a persisted duplicate code, answered with a 400 after
rollback. -/
def create_employee (emp : EmployeeCreate) (s : Store) : ApiOutcome Employee × Store :=
  if emp.salary ≤ 0 then (.serverCrash, s)
  else if emp.employee_code ∈ s.codes then
    (.clientError 400 (createDupMsg emp.employee_code), s)
  else
    (.ok (emp.toEmployee s.nextId), ⟨s.rows ++ [emp.toEmployee s.nextId], s.nextId + 1⟩)

/-- PUT /employees/id (main.py lines 139-164).  The fields are copied onto
the fetched row by setattr (no validation on a table model), the commit
raises IntegrityError exactly when the new code belongs to another row. -/
def update_employee (eid : Nat) (emp : EmployeeCreate) (s : Store) :
    ApiOutcome Employee × Store :=
  if ∃ r ∈ s.rows, r.id = eid then
    if ∃ r ∈ s.rows, r.id ≠ eid ∧ r.employee_code = emp.employee_code then
      (.clientError 400 (updateDupMsg emp.employee_code), s)
    else
      (.ok (emp.toEmployee eid),
        ⟨s.rows.map (fun r => if r.id = eid then emp.toEmployee eid else r), s.nextId⟩)
  else (.clientError 404 notFoundMsg, s)

/-- DELETE /employees/id (main.py lines 169-183). -/
def delete_employee (eid : Nat) (s : Store) : ApiOutcome Unit × Store :=
  if ∃ r ∈ s.rows, r.id = eid then
    (.ok (), ⟨s.rows.filter (fun r => r.id ≠ eid), s.nextId⟩)
  else (.clientError 404 notFoundMsg, s)

/-- Store well-formedness: distinct primary keys, distinct employee codes
(the unique constraint of line 22), and every key below the id sequence. -/
def Store.Wf (s : Store) : Prop :=
  (s.rows.map Employee.id).Nodup ∧
  (s.rows.map Employee.employee_code).Nodup ∧
  ∀ r ∈ s.rows, r.id < s.nextId

/-- The truncated salary of a row whose parse succeeds (0 otherwise). -/
def rowSalaryInt (row : List String) : Int :=
  match pyFloatTruncToInt (fieldAt row 4) with
  | .ok n => n
  | _ => 0

/-- The creation value staged for a fully valid row. -/
def rowEmployee (row : List String) : EmployeeCreate :=
  ⟨fieldAt row 0, fieldAt row 1, fieldAt row 2, fieldAt row 3, rowSalaryInt row⟩

/-- A data row that passes every validation step and stages successfully:
five or more cells, five non-blank stripped fields, a salary parsing to a
positive integer. -/
def RowOk (row : List String) : Prop :=
  5 ≤ row.length ∧
  fieldAt row 0 ≠ "" ∧ fieldAt row 1 ≠ "" ∧ fieldAt row 2 ≠ "" ∧
  fieldAt row 3 ≠ "" ∧ fieldAt row 4 ≠ "" ∧
  0 < rowSalaryInt row ∧
  pyFloatTruncToInt (fieldAt row 4) = .ok (rowSalaryInt row)

instance (row : List String) : Decidable (RowOk row) := by
  unfold RowOk; infer_instance

/-- A data row that passes every row-validation check but whose salary
truncates to exactly 0. -/
def RowZero (row : List String) : Prop :=
  5 ≤ row.length ∧
  fieldAt row 0 ≠ "" ∧ fieldAt row 1 ≠ "" ∧ fieldAt row 2 ≠ "" ∧
  fieldAt row 3 ≠ "" ∧ fieldAt row 4 ≠ "" ∧
  pyFloatTruncToInt (fieldAt row 4) = .ok 0

instance (row : List String) : Decidable (RowZero row) := by
  unfold RowZero; infer_instance

/-- Loop invariant: the batch-local code set is exactly the list of staged
codes, without duplicates. -/
def StInv (st : BatchState) : Prop :=
  st.batchCodes = st.staged.map EmployeeCreate.employee_code ∧ st.batchCodes.Nodup

theorem processRow_count {st st2 : BatchState} {n : Nat} {row : List String}
    (h : processRow st n row = .next st2) :
    st2.errors.length + st2.successCount = st.errors.length + st.successCount + 1 := by
  simp only [processRow] at h
  repeat' split at h
  all_goals first
    | exact StepResult.noConfusion h
    | (injection h with h2; subst h2; simp_arith)

theorem runRows_count {rows : List (List String)} :
    ∀ {st st2 : BatchState} {idx : Nat}, runRows st idx rows = some st2 →
      st2.errors.length + st2.successCount =
        st.errors.length + st.successCount + rows.length := by
  induction rows with
  | nil =>
    intro st st2 idx h
    simp [runRows] at h
    subst h
    simp
  | cons row rest ih =>
    intro st st2 idx h
    rw [runRows] at h
    split at h
    · have h1 := processRow_count (by assumption)
      have h2 := ih h
      simp only [List.length_cons]
      omega
    · simp at h

theorem processRow_inv {st st2 : BatchState} {n : Nat} {row : List String}
    (h : processRow st n row = .next st2) (hinv : StInv st) : StInv st2 := by
  simp only [processRow] at h
  repeat' split at h
  all_goals first
    | exact StepResult.noConfusion h
    | (injection h with h2; subst h2; exact hinv)
    | (injection h with h2; subst h2;
       obtain ⟨hcs, hnd⟩ := hinv
       have hmem : fieldAt row 1 ∉ st.batchCodes := by assumption
       refine ⟨by simp [hcs], ?_⟩
       rw [List.nodup_append]
       refine ⟨hnd, by simp, ?_⟩
       intro a ha hb
       simp only [List.mem_singleton] at hb
       subst hb
       exact hmem ha)

theorem runRows_inv {rows : List (List String)} :
    ∀ {st st2 : BatchState} {idx : Nat}, runRows st idx rows = some st2 →
      StInv st → StInv st2 := by
  induction rows with
  | nil =>
    intro st st2 idx h hinv
    simp [runRows] at h
    subst h
    exact hinv
  | cons row rest ih =>
    intro st st2 idx h hinv
    rw [runRows] at h
    split at h
    · exact ih h (processRow_inv (by assumption) hinv)
    · simp at h

theorem assignIds_map_code (nid : Nat) (l : List EmployeeCreate) :
    (assignIds nid l).map Employee.employee_code =
      l.map EmployeeCreate.employee_code := by
  induction l generalizing nid with
  | nil => simp [assignIds]
  | cons e rest ih => simp [assignIds, EmployeeCreate.toEmployee, ih]

theorem assignIds_id_bound (nid : Nat) (l : List EmployeeCreate) :
    ∀ r ∈ assignIds nid l, nid ≤ r.id ∧ r.id < nid + l.length := by
  induction l generalizing nid with
  | nil => simp [assignIds]
  | cons e rest ih =>
    intro r hr
    rw [assignIds] at hr
    rcases List.mem_cons.1 hr with rfl | hmem
    · simp [EmployeeCreate.toEmployee]
    · have := ih (nid + 1) r hmem
      simp only [List.length_cons]
      omega

theorem assignIds_ids_nodup (nid : Nat) (l : List EmployeeCreate) :
    ((assignIds nid l).map Employee.id).Nodup := by
  induction l generalizing nid with
  | nil => simp [assignIds]
  | cons e rest ih =>
    rw [assignIds]
    simp only [List.map_cons, List.nodup_cons]
    refine ⟨?_, ih (nid + 1)⟩
    intro hmem
    obtain ⟨r, hr, hid⟩ := List.mem_map.1 hmem
    have := (assignIds_id_bound (nid + 1) rest r hr).1
    simp [EmployeeCreate.toEmployee] at hid
    omega

theorem commitBatch_wf {s s2 : Store} {staged : List EmployeeCreate}
    (hwf : s.Wf) (hnd : (staged.map EmployeeCreate.employee_code).Nodup)
    (h : commitBatch s staged = some s2) : s2.Wf := by
  unfold commitBatch at h
  split at h
  · simp at h
  · rename_i hne
    injection h with h2
    subst h2
    obtain ⟨hid, hcode, hbound⟩ := hwf
    refine ⟨?_, ?_, ?_⟩
    · rw [List.map_append, List.nodup_append]
      refine ⟨hid, assignIds_ids_nodup _ _, ?_⟩
      intro a ha hb
      obtain ⟨r, hr, hra⟩ := List.mem_map.1 ha
      obtain ⟨r2, hr2, hrb⟩ := List.mem_map.1 hb
      have h1 := hbound r hr
      have h2 := (assignIds_id_bound _ _ r2 hr2).1
      omega
    · rw [List.map_append, List.nodup_append, assignIds_map_code]
      refine ⟨hcode, hnd, ?_⟩
      intro a ha hb
      obtain ⟨e, he, hea⟩ := List.mem_map.1 hb
      exact hne ⟨e, he, by rw [hea]; exact ha⟩
    · intro r hr
      simp only [Store.mk.injEq]
      rcases List.mem_append.1 hr with h1 | h2
      · have := hbound r h1
        omega
      · have := (assignIds_id_bound _ _ r h2).2
        omega

theorem update_codes_nodup (rows : List Employee) (eid : Nat) (upd : Employee)
    (hid : (rows.map Employee.id).Nodup)
    (hcode : (rows.map Employee.employee_code).Nodup)
    (hother : ∀ r ∈ rows, r.id ≠ eid → r.employee_code ≠ upd.employee_code) :
    ((rows.map (fun r => if r.id = eid then upd else r)).map
      Employee.employee_code).Nodup := by
  induction rows with
  | nil => simp
  | cons r rest ih =>
    simp only [List.map_cons, List.nodup_cons] at hid hcode ⊢
    obtain ⟨hid1, hid2⟩ := hid
    obtain ⟨hcode1, hcode2⟩ := hcode
    refine ⟨?_, ih hid2 hcode2 (fun x hx => hother x (List.mem_cons_of_mem _ hx))⟩
    intro hmem
    obtain ⟨x, hx, hxe⟩ := List.mem_map.1 hmem
    obtain ⟨y, hy, rfl⟩ := List.mem_map.1 hx
    by_cases hreq : r.id = eid
    · rw [if_pos hreq] at hxe
      have hyne : y.id ≠ eid := by
        intro he
        exact hid1 (List.mem_map.2 ⟨y, hy, by omega⟩)
      rw [if_neg hyne] at hxe
      exact hother y (List.mem_cons_of_mem _ hy) hyne hxe
    · rw [if_neg hreq] at hxe
      by_cases hy2 : y.id = eid
      · rw [if_pos hy2] at hxe
        exact hother r (List.mem_cons_self _ _) hreq hxe.symm
      · rw [if_neg hy2] at hxe
        exact hcode1 (List.mem_map.2 ⟨y, hy, hxe⟩)

theorem create_employee_wf {emp : EmployeeCreate} {s : Store} (hwf : s.Wf) :
    ((create_employee emp s).2).Wf := by
  unfold create_employee
  split
  · exact hwf
  · split
    · exact hwf
    · rename_i hsal hmem
      obtain ⟨hid, hcode, hbound⟩ := hwf
      refine ⟨?_, ?_, ?_⟩
      · rw [List.map_append, List.nodup_append]
        refine ⟨hid, by simp, ?_⟩
        intro a ha hb
        simp [EmployeeCreate.toEmployee] at hb
        subst hb
        obtain ⟨r, hr, hra⟩ := List.mem_map.1 ha
        have := hbound r hr
        omega
      · rw [List.map_append, List.nodup_append]
        refine ⟨hcode, by simp, ?_⟩
        intro a ha hb
        simp [EmployeeCreate.toEmployee] at hb
        subst hb
        exact hmem ha
      · intro r hr
        rcases List.mem_append.1 hr with h1 | h2
        · have := hbound r h1
          simp only
          omega
        · simp at h2
          subst h2
          simp [EmployeeCreate.toEmployee]

theorem update_employee_wf {eid : Nat} {emp : EmployeeCreate} {s : Store}
    (hwf : s.Wf) : ((update_employee eid emp s).2).Wf := by
  unfold update_employee
  split
  · split
    · exact hwf
    · rename_i hex hncol
      push_neg at hncol
      obtain ⟨hid, hcode, hbound⟩ := hwf
      have hids : (s.rows.map (fun r => if r.id = eid then emp.toEmployee eid else r)).map
          Employee.id = s.rows.map Employee.id := by
        rw [List.map_map]
        apply List.map_congr_left
        intro r hr
        by_cases hr2 : r.id = eid
        · simp [Function.comp, hr2, EmployeeCreate.toEmployee]
        · simp [Function.comp, hr2]
      refine ⟨?_, ?_, ?_⟩
      · rw [hids]
        exact hid
      · exact update_codes_nodup s.rows eid (emp.toEmployee eid) hid hcode
          (fun r hr hne => hncol r hr hne)
      · intro r hr
        obtain ⟨y, hy, rfl⟩ := List.mem_map.1 hr
        by_cases hy2 : y.id = eid
        · obtain ⟨x, hx, hxe⟩ := hex
          have := hbound x hx
          simp [hy2, EmployeeCreate.toEmployee]
          omega
        · simp only [if_neg hy2]
          exact hbound y hy
  · exact hwf

theorem delete_employee_wf {eid : Nat} {s : Store} (hwf : s.Wf) :
    ((delete_employee eid s).2).Wf := by
  unfold delete_employee
  split
  · obtain ⟨hid, hcode, hbound⟩ := hwf
    refine ⟨?_, ?_, ?_⟩
    · exact List.Nodup.sublist (List.Sublist.map _ (List.filter_sublist _)) hid
    · exact List.Nodup.sublist (List.Sublist.map _ (List.filter_sublist _)) hcode
    · intro r hr
      exact hbound r (List.mem_of_mem_filter hr)
  · exact hwf

theorem bulkUpload_wf {file : Option (List (List String))} {s : Store}
    (hwf : s.Wf) : ((bulkUpload file s).2).Wf := by
  rcases file with _ | rows
  · exact hwf
  · rcases rows with _ | ⟨header, dataRows⟩
    · exact hwf
    · simp only [bulkUpload]
      split
      · exact hwf
      · cases hrun : runRows initBatchState 0 dataRows with
        | none => simp only [hrun]; exact hwf
        | some st =>
          simp only [hrun]
          cases hcommit : commitBatch s st.staged with
          | none => simp only [hcommit]; exact hwf
          | some s2 =>
            simp only [hcommit]
            have hinv : StInv st := runRows_inv hrun ⟨rfl, List.nodup_nil⟩
            have hnd : (st.staged.map EmployeeCreate.employee_code).Nodup := by
              rw [← hinv.1]
              exact hinv.2
            exact commitBatch_wf hwf hnd hcommit

theorem bulkUpload_run {header : List String} {dataRows : List (List String)}
    {s : Store} {st : BatchState} (h5 : 5 ≤ header.length)
    (hrun : runRows initBatchState 0 dataRows = some st) :
    bulkUpload (some (header :: dataRows)) s =
      match commitBatch s st.staged with
      | none => (.ok batchFailMsg 0 (batchErrorEntry :: st.errors), s)
      | some s2 => (.ok (successMsg st.successCount) st.successCount st.errors, s2) := by
  simp only [bulkUpload]
  rw [if_neg (by omega), hrun]

theorem processRow_short {st : BatchState} {n : Nat} {row : List String}
    (h : row.length < 5) :
    processRow st n row =
      .next { st with errors := st.errors ++ [⟨.num n, insufficientMsg, .fields row⟩] } := by
  simp only [processRow]
  rw [if_pos h]

theorem processRow_blank {st : BatchState} {n : Nat} {row : List String}
    (h5 : ¬row.length < 5)
    (hb : fieldAt row 0 = "" ∨ fieldAt row 1 = "" ∨ fieldAt row 2 = "" ∨
      fieldAt row 3 = "" ∨ fieldAt row 4 = "") :
    processRow st n row =
      .next { st with errors := st.errors ++ [⟨.num n, requiredMsg, .fields row⟩] } := by
  simp only [processRow]
  rw [if_neg h5, if_pos hb]

theorem processRow_valid {st : BatchState} {n : Nat} {row : List String}
    (h : RowOk row) :
    processRow st n row =
      if fieldAt row 1 ∈ st.batchCodes then
        .next { st with errors :=
          st.errors ++ [⟨.num n, dupCodeMsg (fieldAt row 1), .fields row⟩] }
      else
        .next { st with
                batchCodes := st.batchCodes ++ [fieldAt row 1],
                staged := st.staged ++ [rowEmployee row],
                successCount := st.successCount + 1 } := by
  obtain ⟨h5, h0, h1, h2, h3, h4, hpos, hparse⟩ := h
  simp only [processRow]
  rw [if_neg (by omega)]
  rw [if_neg (by simp [h0, h1, h2, h3, h4])]
  simp only [hparse]
  rw [if_neg (by omega : ¬rowSalaryInt row < 0)]
  by_cases hmem : fieldAt row 1 ∈ st.batchCodes
  · rw [if_pos hmem, if_pos hmem]
  · rw [if_neg hmem, if_neg hmem, if_neg (by omega : ¬rowSalaryInt row ≤ 0)]
    rfl

theorem processRow_zero {st : BatchState} {n : Nat} {row : List String}
    (h : RowZero row) (hmem : fieldAt row 1 ∉ st.batchCodes) :
    processRow st n row =
      .next { st with errors := st.errors ++ [⟨.num n, dataValidationMsg, .fields row⟩] } := by
  obtain ⟨h5, h0, h1, h2, h3, h4, hparse⟩ := h
  simp only [processRow]
  rw [if_neg (by omega)]
  rw [if_neg (by simp [h0, h1, h2, h3, h4])]
  simp only [hparse]
  rw [if_neg (by omega : ¬(0 : Int) < 0)]
  rw [if_neg hmem]
  rw [if_pos (by omega : (0 : Int) ≤ 0)]

theorem runRows_cons {st st2 : BatchState} {idx : Nat} {row : List String}
    {rest : List (List String)} (h : processRow st (idx + 2) row = .next st2) :
    runRows st idx (row :: rest) = runRows st2 (idx + 1) rest := by
  rw [runRows, h]

/-- Empty store: fresh database after create_db_and_tables. -/
def store0 : Store := ⟨[], 1⟩

/-- Store already holding an employee with code E100. -/
def store1 : Store := ⟨[⟨1, "E100", "Eve", "Mgr", "HR", 100⟩], 2⟩

def hdr5 : List String := ["name", "code", "position", "department", "salary"]

def aliceRow : List String := ["Alice", "E100", "Eng", "R&D", "50000"]

def bobRow : List String := ["Bob", "", "Eng", "R&D", "60000"]

def carolRow : List String := ["Carol", "E100", "HR", "HR", "70000"]

def danRow : List String := ["Dan", "E7", "Dev", "Ops", "0"]

/-- Loop state after processing aliceRow alone. -/
def stAlice : BatchState := ⟨1, [], ["E100"], [⟨"Alice", "E100", "Eng", "R&D", 50000⟩]⟩

/-- Loop state after processing aliceRow then bobRow (blank code). -/
def stAliceBob : BatchState :=
  ⟨1, [⟨.num 3, requiredMsg, .fields bobRow⟩], ["E100"],
    [⟨"Alice", "E100", "Eng", "R&D", 50000⟩]⟩

/-- Store after committing Alice onto the empty store. -/
def storeAfterAlice : Store := ⟨[⟨1, "E100", "Alice", "Eng", "R&D", 50000⟩], 2⟩

/-- C1: if the final batch commit is rejected because a staged employee_code
collides with a persisted record, the store is returned unchanged (zero
records created), the response is still a normal response (UploadResult.ok,
not a request-level failure), successful_uploads is 0, and the error list is
the synthetic batch-level collision entry followed by all per-row errors
collected during validation. -/
theorem C1_commit_collision_discards_batch (header : List String)
    (dataRows : List (List String)) (s : Store) (st : BatchState)
    (h5 : 5 ≤ header.length)
    (hrun : runRows initBatchState 0 dataRows = some st)
    (hcol : ∃ e ∈ st.staged, e.employee_code ∈ s.codes) :
    bulkUpload (some (header :: dataRows)) s =
      (.ok batchFailMsg 0 (batchErrorEntry :: st.errors), s) := by
  rw [bulkUpload_run h5 hrun]
  have hc : commitBatch s st.staged = none := by
    unfold commitBatch
    rw [if_pos hcol]
  rw [hc]

/-- Witness for C1: uploading Alice (code E100) against a store already
holding E100 discards the batch and reports the synthetic error. -/
theorem C1_witness :
    bulkUpload (some [hdr5, aliceRow]) store1 =
      (.ok batchFailMsg 0 (batchErrorEntry :: stAlice.errors), store1) :=
  C1_commit_collision_discards_batch hdr5 [aliceRow] store1 stAlice
    (by decide) (by decide) (by decide)

/-- C2: for a decodable file with a full header, when the commit succeeds
the returned error count plus successful_uploads equals the number of data
rows; when the commit fails on a collision, successful_uploads is 0 and the
error list has exactly one more entry than the per-row errors collected. -/
theorem C2_error_success_counts (header : List String)
    (dataRows : List (List String)) (s : Store) (st : BatchState)
    (h5 : 5 ≤ header.length)
    (hrun : runRows initBatchState 0 dataRows = some st) :
    (∀ s2, commitBatch s st.staged = some s2 →
      bulkUpload (some (header :: dataRows)) s =
        (.ok (successMsg st.successCount) st.successCount st.errors, s2) ∧
      st.errors.length + st.successCount = dataRows.length) ∧
    (commitBatch s st.staged = none →
      bulkUpload (some (header :: dataRows)) s =
        (.ok batchFailMsg 0 (batchErrorEntry :: st.errors), s) ∧
      (batchErrorEntry :: st.errors).length = st.errors.length + 1 ∧
      st.errors.length + st.successCount = dataRows.length) := by
  have hcount := runRows_count hrun
  simp [initBatchState] at hcount
  constructor
  · intro s2 hc
    rw [bulkUpload_run h5 hrun, hc]
    exact ⟨rfl, by omega⟩
  · intro hc
    rw [bulkUpload_run h5 hrun, hc]
    exact ⟨rfl, by simp, by omega⟩

/-- Witness for C2 (success case): Alice plus a blank-code Bob row give one
success and one error, 1 + 1 = 2 data rows. -/
theorem C2_witness :
    bulkUpload (some [hdr5, aliceRow, bobRow]) store0 =
      (.ok (successMsg stAliceBob.successCount) stAliceBob.successCount
        stAliceBob.errors, storeAfterAlice) ∧
    stAliceBob.errors.length + stAliceBob.successCount =
      [aliceRow, bobRow].length :=
  (C2_error_success_counts hdr5 [aliceRow, bobRow] store0 stAliceBob
    (by decide) (by decide)).1 storeAfterAlice (by decide)

/-- C3: the end-to-end example of the spec: header plus Alice / Bob (blank
code) / Carol (duplicate E100) against a store without E100 gives exactly
one success (Alice persisted with a fresh id) and exactly two errors: a
required-field error for row 3 and a duplicate-within-this-upload error for
row 4. -/
theorem C3_end_to_end_example :
    bulkUpload (some [hdr5, aliceRow, bobRow, carolRow]) store0 =
      (.ok (successMsg 1) 1
        [⟨.num 3, requiredMsg, .fields bobRow⟩,
         ⟨.num 4, dupCodeMsg "E100", .fields carolRow⟩],
       storeAfterAlice) := by
  decide

/-- C4 (code bug): a salary text parsed by float to an infinity makes
int(float(...)) raise OverflowError, which the except ValueError at
main.py line 241 does not catch, so instead of the per-row salary-format
error the claim (and spec section 7) describe, the whole request aborts
with a server error and the store is untouched. -/
theorem C4_salary_inf_crashes_request :
    pyFloatTruncToInt "inf" = .overflowError ∧
    pyFloatTruncToInt "-inf" = .overflowError ∧
    pyFloatTruncToInt "1e400" = .overflowError ∧
    bulkUpload (some [hdr5, ["Ann", "E9", "Dev", "Ops", "inf"]]) store0 =
      (.serverError, store0) := by
  decide

/-- C5: three otherwise-valid rows with codes A, B, A produce exactly one
duplicate-within-this-upload error, recorded for the later occurrence of A
(display row 4), and stage exactly the first A row and the B row, in that
order: first-seen wins. -/
theorem C5_duplicate_code_first_seen_wins (ra rb rc : List String)
    (A B : String) (hra : RowOk ra) (hrb : RowOk rb) (hrc : RowOk rc)
    (hA : fieldAt ra 1 = A) (hB : fieldAt rb 1 = B) (hA2 : fieldAt rc 1 = A)
    (hAB : A ≠ B) :
    runRows initBatchState 0 [ra, rb, rc] =
      some ⟨2, [⟨.num 4, dupCodeMsg A, .fields rc⟩], [A, B],
        [rowEmployee ra, rowEmployee rb]⟩ := by
  subst hA
  subst hB
  have h1 : processRow initBatchState 2 ra =
      .next ⟨1, [], [fieldAt ra 1], [rowEmployee ra]⟩ := by
    rw [processRow_valid hra, if_neg (by simp [initBatchState])]
    rfl
  have h2 : processRow ⟨1, [], [fieldAt ra 1], [rowEmployee ra]⟩ 3 rb =
      .next ⟨2, [], [fieldAt ra 1, fieldAt rb 1],
        [rowEmployee ra, rowEmployee rb]⟩ := by
    rw [processRow_valid hrb,
      if_neg (by simp; exact fun h => hAB h.symm)]
    rfl
  have h3 : processRow ⟨2, [], [fieldAt ra 1, fieldAt rb 1],
      [rowEmployee ra, rowEmployee rb]⟩ 4 rc =
      .next ⟨2, [⟨.num 4, dupCodeMsg (fieldAt ra 1), .fields rc⟩],
        [fieldAt ra 1, fieldAt rb 1], [rowEmployee ra, rowEmployee rb]⟩ := by
    rw [processRow_valid hrc, if_pos (by simp [hA2]), hA2]
    rfl
  rw [runRows_cons h1, runRows_cons h2, runRows_cons h3, runRows]

/-- Witness for C5 at concrete rows with codes A, B, A. -/
theorem C5_witness :
    runRows initBatchState 0
      [["a1", "A", "p", "d", "5"], ["a2", "B", "p", "d", "6"],
       ["a3", "A", "p", "d", "7"]] =
      some ⟨2, [⟨.num 4, dupCodeMsg "A", .fields ["a3", "A", "p", "d", "7"]⟩],
        ["A", "B"],
        [rowEmployee ["a1", "A", "p", "d", "5"],
         rowEmployee ["a2", "B", "p", "d", "6"]]⟩ :=
  C5_duplicate_code_first_seen_wins
    ["a1", "A", "p", "d", "5"] ["a2", "B", "p", "d", "6"]
    ["a3", "A", "p", "d", "7"] "A" "B"
    (by decide) (by decide) (by decide) (by decide) (by decide) (by decide)
    (by decide)

/-- C6 (code bug): the request fails with a 400 exactly on bad encoding,
an empty row list or a short header; but the final clause of the claim
(and the propagation rule of spec section 7), that no per-row validation
failure ever aborts the request, is broken by the same OverflowError slip
as C4: a data row whose salary parses to an infinity aborts the whole
request with a server error, losing the valid Alice row of the same
batch. -/
theorem C6_overflow_row_aborts_request :
    bulkUpload (some [hdr5, aliceRow, ["Neg", "E8", "Dev", "Ops", "-inf"]])
      store0 = (.serverError, store0) ∧
    bulkUpload none store0 = (.badRequest encodingErrMsg, store0) ∧
    bulkUpload (some []) store0 = (.badRequest emptyFileMsg, store0) ∧
    bulkUpload (some [["a", "b"]]) store0 =
      (.badRequest headerErrMsg, store0) := by
  decide

/-- C7: a well-formed store (distinct ids, distinct employee codes, ids
below the sequence) stays well-formed - in particular no two persisted
records ever share an employee_code - under create, update, delete and
bulk upload, including every failure / rollback branch of those
operations. -/
theorem C7_store_code_uniqueness_invariant (s : Store) (hwf : s.Wf)
    (emp : EmployeeCreate) (eid : Nat) (file : Option (List (List String))) :
    ((create_employee emp s).2).Wf ∧ ((update_employee eid emp s).2).Wf ∧
    ((delete_employee eid s).2).Wf ∧ ((bulkUpload file s).2).Wf :=
  ⟨create_employee_wf hwf, update_employee_wf hwf, delete_employee_wf hwf,
    bulkUpload_wf hwf⟩

/-- Witness for C7 at a concrete store, creation value and upload. -/
theorem C7_witness :
    ((create_employee ⟨"Zed", "E200", "Dev", "Ops", 10⟩ store1).2).Wf ∧
    ((update_employee 1 ⟨"Zed", "E200", "Dev", "Ops", 10⟩ store1).2).Wf ∧
    ((delete_employee 1 store1).2).Wf ∧
    ((bulkUpload (some [hdr5, aliceRow]) store1).2).Wf :=
  C7_store_code_uniqueness_invariant store1
    (by unfold Store.Wf; exact ⟨by decide, by decide, by decide⟩)
    ⟨"Zed", "E200", "Dev", "Ops", 10⟩ 1 (some [hdr5, aliceRow])

/-- C8: row validation short-circuits in a fixed order: a row with fewer
than 5 cells reports only the insufficient-fields error, and a row with 5
or more cells but some blank required field reports only the
required-field error, whatever its salary text contains. -/
theorem C8_validation_order_short_circuit (st : BatchState) (n : Nat)
    (row : List String) :
    (row.length < 5 →
      processRow st n row =
        .next { st with errors :=
          st.errors ++ [⟨.num n, insufficientMsg, .fields row⟩] }) ∧
    (5 ≤ row.length →
      (fieldAt row 0 = "" ∨ fieldAt row 1 = "" ∨ fieldAt row 2 = "" ∨
        fieldAt row 3 = "" ∨ fieldAt row 4 = "") →
      processRow st n row =
        .next { st with errors :=
          st.errors ++ [⟨.num n, requiredMsg, .fields row⟩] }) :=
  ⟨fun h => processRow_short h, fun h5 hb => processRow_blank (by omega) hb⟩

/-- Witness for C8: a row with a blank code AND a malformed salary reports
only the required-field error. -/
theorem C8_witness :
    processRow initBatchState 3 ["Bob", "", "Eng", "R&D", "zzz"] =
      .next { initBatchState with errors :=
        initBatchState.errors ++
          [⟨.num 3, requiredMsg, .fields ["Bob", "", "Eng", "R&D", "zzz"]⟩] } :=
  (C8_validation_order_short_circuit initBatchState 3
    ["Bob", "", "Eng", "R&D", "zzz"]).2 (by decide) (by decide)

/-- C9: a file holding only a full header and no data rows is a normal
success: zero successful uploads, empty error list, store unchanged. -/
theorem C9_header_only_empty_success (header : List String) (s : Store)
    (h5 : 5 ≤ header.length) :
    bulkUpload (some [header]) s = (.ok (successMsg 0) 0 [], s) := by
  have hrun : runRows initBatchState 0 ([] : List (List String)) =
      some initBatchState := rfl
  rw [bulkUpload_run h5 hrun]
  have hc : commitBatch s initBatchState.staged = some s := by
    unfold commitBatch
    rw [if_neg (by simp [initBatchState])]
    simp [initBatchState, assignIds]
  rw [hc]
  rfl

/-- Witness for C9 at the concrete header and a populated store. -/
theorem C9_witness :
    bulkUpload (some [hdr5]) store1 = (.ok (successMsg 0) 0 [], store1) :=
  C9_header_only_empty_success hdr5 store1 (by decide)

/-- Counterexample to C10 as stated: the row with salary text 0 passes the
row-validation checks but is NOT staged for commit: the upload of Dan with
salary 0 over an empty store creates nothing (successful_uploads 0, store
unchanged) and records a staging validation error for that row instead. -/
theorem C10_counterexample_salary_zero_not_staged :
    bulkUpload (some [hdr5, danRow]) store0 =
      (.ok (successMsg 0) 0 [⟨.num 2, dataValidationMsg, .fields danRow⟩],
        store0) := by
  decide

/-- C10 (amended): an otherwise-valid data row whose salary text truncates
to exactly 0 passes the salary-format check of row validation (only
strictly negative values are rejected there), but staging then raises,
because Employee.model_validate enforces the salary-greater-than-0
constraint of the persisted model, so the row is recorded as a
data-validation error and is not staged: the state gains that error entry
and nothing else. -/
theorem C10_salary_zero_rejected_at_staging (st : BatchState) (n : Nat)
    (row : List String) (h : RowZero row)
    (hmem : fieldAt row 1 ∉ st.batchCodes) :
    processRow st n row =
      .next { st with errors :=
        st.errors ++ [⟨.num n, dataValidationMsg, .fields row⟩] } :=
  processRow_zero h hmem

/-- Witness for the amended C10 at the concrete Dan row. -/
theorem C10_witness :
    processRow initBatchState 2 danRow =
      .next { initBatchState with errors :=
        initBatchState.errors ++ [⟨.num 2, dataValidationMsg, .fields danRow⟩] } :=
  C10_salary_zero_rejected_at_staging initBatchState 2 danRow
    (by decide) (by decide)

end HRM
